import Mathlib

/-!
Shallow embedding of the playback-position state machine implemented in
src/external-backend.js (class External).  Time values are modelled as exact
rationals; the JavaScript value semantics actually exercised by that module
(null and undefined coercion in arithmetic and comparison, truthiness, and
NaN or signed infinity produced by division) are modelled explicitly by the
JSVal type.  Event emission is modelled by returning the list of events each
operation fires, in order; the tick callback registered on the play event in
createTimer is invoked synchronously inside play, exactly as fireEvent does
in the source.
-/

namespace WS

/-- The three state strings PLAYING, PAUSED, FINISHED of the source. -/
inductive PState
  | playing
  | paused
  | finished
deriving DecidableEq

/-- JavaScript values flowing through the backend: undefined, null, finite
numbers (exact rationals), NaN and the two infinities. -/
inductive JSVal
  | undefined
  | null
  | num (q : ℚ)
  | nan
  | inf
  | ninf
deriving DecidableEq

namespace JSVal

/-- The ToNumber coercion as it applies to these values: undefined becomes
NaN, null becomes 0, numbers and specials are unchanged. -/
def toNum : JSVal → JSVal
  | undefined => nan
  | null => num 0
  | v => v

/-- Loose equality with null (the test x == null): true exactly for null and
undefined. -/
def isNullish : JSVal → Bool
  | undefined => true
  | null => true
  | _ => false

/-- JavaScript truthiness: undefined, null, NaN and 0 are falsy; every other
number, including the infinities, is truthy. -/
def truthy : JSVal → Bool
  | num q => decide (q ≠ 0)
  | inf => true
  | ninf => true
  | _ => false

/-- JavaScript addition after ToNumber. -/
def add (a b : JSVal) : JSVal :=
  match a.toNum, b.toNum with
  | num x, num y => num (x + y)
  | num _, inf => inf
  | inf, num _ => inf
  | inf, inf => inf
  | num _, ninf => ninf
  | ninf, num _ => ninf
  | ninf, ninf => ninf
  | _, _ => nan

/-- JavaScript subtraction after ToNumber. -/
def sub (a b : JSVal) : JSVal :=
  match a.toNum, b.toNum with
  | num x, num y => num (x - y)
  | num _, ninf => inf
  | inf, num _ => inf
  | inf, ninf => inf
  | num _, inf => ninf
  | ninf, num _ => ninf
  | ninf, inf => ninf
  | _, _ => nan

/-- JavaScript multiplication after ToNumber. -/
def mul (a b : JSVal) : JSVal :=
  match a.toNum, b.toNum with
  | num x, num y => num (x * y)
  | num x, inf => if 0 < x then inf else if x < 0 then ninf else nan
  | inf, num y => if 0 < y then inf else if y < 0 then ninf else nan
  | num x, ninf => if 0 < x then ninf else if x < 0 then inf else nan
  | ninf, num y => if 0 < y then ninf else if y < 0 then inf else nan
  | inf, inf => inf
  | ninf, ninf => inf
  | inf, ninf => ninf
  | ninf, inf => ninf
  | _, _ => nan

/-- JavaScript division after ToNumber: a nonzero number over zero gives a
signed infinity, zero over zero gives NaN. -/
def div (a b : JSVal) : JSVal :=
  match a.toNum, b.toNum with
  | num x, num y =>
    if y = 0 then (if x = 0 then nan else if 0 < x then inf else ninf)
    else num (x / y)
  | num _, inf => num 0
  | num _, ninf => num 0
  | inf, num y => if 0 ≤ y then inf else ninf
  | ninf, num y => if 0 ≤ y then ninf else inf
  | _, _ => nan

/-- The JavaScript comparison a >= b after ToNumber: any comparison with NaN
(hence with undefined) is false; null compares as 0. -/
def jge (a b : JSVal) : Bool :=
  match a.toNum, b.toNum with
  | num x, num y => decide (y ≤ x)
  | num _, inf => false
  | num _, ninf => true
  | inf, num _ => true
  | ninf, num _ => false
  | inf, inf => true
  | inf, ninf => true
  | ninf, inf => false
  | ninf, ninf => true
  | _, _ => false

/-- The JavaScript expression a || b: a when truthy, otherwise b. -/
def orElse (a b : JSVal) : JSVal :=
  if a.truthy then a else b

end JSVal

/-- Events fired on the observer, in emission order. -/
inductive Ev
  | play
  | pause
  | audioprocess (t : JSVal)
  | finish
deriving DecidableEq

/-- The mutable fields of the External backend object. -/
structure Ext where
  playbackRate : JSVal
  volume : JSVal
  scheduledPause : JSVal
  clockTime : JSVal
  startPosition : JSVal
  lastPlay : JSVal
  explicitDuration : JSVal
  state : Option PState
  peaks : Option (List ℚ)
deriving DecidableEq

/-- Field values set by the constructor. -/
def initial : Ext :=
  { playbackRate := .num 1
    volume := .num 1
    scheduledPause := .null
    clockTime := .null
    startPosition := .null
    lastPlay := .null
    explicitDuration := .null
    state := none
    peaks := none }

/-- getDuration: returns explicitDuration. -/
def getDuration (e : Ext) : JSVal :=
  e.explicitDuration

/-- isPaused: state !== PLAYING. -/
def isPaused (e : Ext) : Bool :=
  decide (e.state ≠ some PState.playing)

/-- getPlayedTime: (clockTime - lastPlay) * playbackRate. -/
def getPlayedTime (e : Ext) : JSVal :=
  .mul (.sub e.clockTime e.lastPlay) e.playbackRate

/-- getCurrentTime: switch on state; a null state falls through the switch
and returns undefined. -/
def getCurrentTime (e : Ext) : JSVal :=
  match e.state with
  | some .playing => .add e.startPosition (getPlayedTime e)
  | some .paused => e.startPosition
  | some .finished => getDuration e
  | none => .undefined

/-- getPlayedPercents: 1 when FINISHED, otherwise currentTime / duration with
the JavaScript or-zero guard. -/
def getPlayedPercents (e : Ext) : JSVal :=
  if e.state = some PState.finished then .num 1
  else .orElse (.div (getCurrentTime e) (getDuration e)) (.num 0)

/-- setState: assigns only on change, and fires finish exactly when the new
state is FINISHED. -/
def setState (s : PState) (e : Ext) : Ext × List Ev :=
  if e.state ≠ some s then
    ({ e with state := some s }, if s = PState.finished then [Ev.finish] else [])
  else (e, [])

/-- pause: clears scheduledPause, folds getPlayedTime into startPosition,
moves to PAUSED and fires pause; the listener installed by createTimer then
fires one audioprocess at the frozen current time. -/
def pause (e : Ext) : Ext × List Ev :=
  let e1 : Ext := { e with scheduledPause := .null }
  let e2 : Ext := { e1 with startPosition := .add e1.startPosition (getPlayedTime e1) }
  let r := setState PState.paused e2
  (r.1, r.2 ++ [Ev.pause, Ev.audioprocess (getCurrentTime r.1)])

/-- The clock-sample part of onAudioProcess: when the argument is not null or
undefined, store it divided by 1000 as clockTime, and anchor lastPlay to it
when lastPlay is still unset. -/
def updateClock (time : JSVal) (e : Ext) : Ext :=
  if time.isNullish then e
  else
    let e1 : Ext := { e with clockTime := .div time (.num 1000) }
    if e1.lastPlay.isNullish then { e1 with lastPlay := e1.clockTime } else e1

/-- The onAudioProcess callback of createTimer: after the clock update, a
current time at or past the duration pauses then moves to FINISHED; otherwise
a truthy scheduledPause that the current time has reached pauses; otherwise,
while PLAYING, one audioprocess event is fired (and the source re-arms the
animation frame, which here is the driver re-invoking this function). -/
def onAudioProcess (time : JSVal) (e : Ext) : Ext × List Ev :=
  let e1 := updateClock time e
  if JSVal.jge (getCurrentTime e1) (getDuration e1) then
    let r1 := pause e1
    let r2 := setState PState.finished r1.1
    (r2.1, r1.2 ++ r2.2)
  else if e1.scheduledPause.truthy ∧ JSVal.jge (getCurrentTime e1) e1.scheduledPause then
    pause e1
  else if e1.state = some PState.playing then
    (e1, [Ev.audioprocess (getCurrentTime e1)])
  else (e1, [])

/-- seekTo: an unspecified start defaults to the current time, wrapped to 0
when it reaches the duration; startPosition is assigned unconditionally; a
FINISHED state is revived to PAUSED. -/
def seekTo (start : JSVal) (e : Ext) : Ext × List Ev :=
  let s :=
    if start.isNullish then
      let c := getCurrentTime e
      if JSVal.jge c (getDuration e) then .num 0 else c
    else start
  let e1 : Ext := { e with startPosition := s }
  if e1.state = some PState.finished then setState PState.paused e1 else (e1, [])

/-- play: seeks, records the end argument as scheduledPause, moves to PLAYING,
resets the lastPlay and clockTime anchors, and fires play; firing play
synchronously invokes the onAudioProcess listener with an undefined time. -/
def play (start stop : JSVal) (e : Ext) : Ext × List Ev :=
  let r1 := seekTo start e
  let e1 : Ext := { r1.1 with scheduledPause := stop }
  let r2 := setState PState.playing e1
  let e2 : Ext := { r2.1 with lastPlay := .null, clockTime := .null }
  let r3 := onAudioProcess .undefined e2
  (r3.1, r1.2 ++ r2.2 ++ [Ev.play] ++ r3.2)

/-- setPlaybackRate: a falsy argument is replaced by 1; while paused only the
rate changes; while playing the backend pauses, changes the rate, and plays
again with no arguments. -/
def setPlaybackRate (value : JSVal) (e : Ext) : Ext × List Ev :=
  let v := JSVal.orElse value (.num 1)
  if isPaused e then ({ e with playbackRate := v }, [])
  else
    let r1 := pause e
    let e1 : Ext := { r1.1 with playbackRate := v }
    let r2 := play .undefined .undefined e1
    (r2.1, r1.2 ++ r2.2)

/-- setPeaks: stores the duration and the peaks verbatim. -/
def setPeaks (pk : Option (List ℚ)) (duration : JSVal) (e : Ext) : Ext :=
  { e with explicitDuration := duration, peaks := pk }

/-- load: resets startPosition to 0, stores peaks and duration, clears
scheduledPause and forces the PAUSED state. -/
def load (pk : Option (List ℚ)) (duration : JSVal) (e : Ext) : Ext × List Ev :=
  let e1 : Ext := { e with startPosition := .num 0 }
  let e2 := setPeaks pk duration e1
  let e3 : Ext := { e2 with scheduledPause := .null }
  setState PState.paused e3

/-- getPeaks: the stored peaks, or an empty list when none were loaded. -/
def getPeaks (e : Ext) : List ℚ :=
  e.peaks.getD []

end WS

namespace WS

/-! Helper lemmas about the primitive state transitions. -/

@[simp]
lemma updateClock_state (time : JSVal) (e : Ext) : (updateClock time e).state = e.state := by
  simp only [updateClock]
  split
  · rfl
  · split <;> rfl

@[simp]
lemma updateClock_scheduledPause (time : JSVal) (e : Ext) :
    (updateClock time e).scheduledPause = e.scheduledPause := by
  simp only [updateClock]
  split
  · rfl
  · split <;> rfl

@[simp]
lemma updateClock_startPosition (time : JSVal) (e : Ext) :
    (updateClock time e).startPosition = e.startPosition := by
  simp only [updateClock]
  split
  · rfl
  · split <;> rfl

@[simp]
lemma updateClock_playbackRate (time : JSVal) (e : Ext) :
    (updateClock time e).playbackRate = e.playbackRate := by
  simp only [updateClock]
  split
  · rfl
  · split <;> rfl

@[simp]
lemma updateClock_explicitDuration (time : JSVal) (e : Ext) :
    (updateClock time e).explicitDuration = e.explicitDuration := by
  simp only [updateClock]
  split
  · rfl
  · split <;> rfl

@[simp]
lemma setState_paused_events (e : Ext) : (setState PState.paused e).2 = [] := by
  simp only [setState]
  split <;> simp

@[simp]
lemma setState_paused_state (e : Ext) : (setState PState.paused e).1.state = some PState.paused := by
  simp only [setState]
  split
  · rfl
  · next h => simpa using h

@[simp]
lemma pause_events (e : Ext) :
    (pause e).2 = [Ev.pause, Ev.audioprocess (getCurrentTime (pause e).1)] := by
  simp [pause]

@[simp]
lemma pause_state (e : Ext) : (pause e).1.state = some PState.paused := by
  simp [pause]

@[simp]
lemma pause_scheduledPause (e : Ext) : (pause e).1.scheduledPause = .null := by
  simp only [pause, setState]
  split <;> rfl

end WS

namespace WS

/-- A concrete reachable state used to witness the claim theorems below:
Playing, anchored at lastPlay 1 with clockTime 5, startPosition 3, rate 2,
duration 20. -/
def witnessPlaying : Ext :=
  { playbackRate := .num 2
    volume := .num 1
    scheduledPause := .undefined
    clockTime := .num 5
    startPosition := .num 3
    lastPlay := .num 1
    explicitDuration := .num 20
    state := some PState.playing
    peaks := none }

/-- Claim C2: getCurrentTime returns startPosition while Paused, returns
startPosition plus (clockTime minus lastPlay) times playbackRate while
Playing with both clock anchors set, and returns the clip duration while
Finished. -/
theorem claim2_getCurrentTime_cases (e : Ext) (p c l r : ℚ) :
    (e.state = some PState.paused → getCurrentTime e = e.startPosition) ∧
    (e.state = some PState.playing → e.startPosition = .num p → e.clockTime = .num c →
      e.lastPlay = .num l → e.playbackRate = .num r →
      getCurrentTime e = .num (p + (c - l) * r)) ∧
    (e.state = some PState.finished → getCurrentTime e = getDuration e) := by
  refine ⟨fun h => ?_, fun h hp hc hl hr => ?_, fun h => ?_⟩
  · simp [getCurrentTime, h]
  · simp [getCurrentTime, h, getPlayedTime, hp, hc, hl, hr, JSVal.add, JSVal.sub, JSVal.mul,
      JSVal.toNum]
  · simp [getCurrentTime, h]

/-- Witness for claim C2 at the concrete Playing state above. -/
theorem claim2_witness :
    getCurrentTime witnessPlaying = .num (3 + (5 - 1) * 2) :=
  (claim2_getCurrentTime_cases witnessPlaying 3 5 1 2).2.1 rfl rfl rfl rfl rfl

/-- Claim C10: isPaused is true exactly when the state is not Playing, so in
particular it is true while Finished. -/
theorem claim10_isPaused (e : Ext) :
    (isPaused e = true ↔ e.state ≠ some PState.playing) ∧
    (e.state = some PState.finished → isPaused e = true) := by
  constructor
  · simp [isPaused]
  · intro h
    simp [isPaused, h]

/-- Witness for claim C10 at a concrete Finished state. -/
theorem claim10_witness :
    isPaused { witnessPlaying with state := some PState.finished } = true :=
  (claim10_isPaused { witnessPlaying with state := some PState.finished }).2 rfl

/-- Claim C8: seekTo with an unspecified start sets startPosition to the
current time, substituting 0 when that current time reaches the duration;
seekTo with an explicit numeric start sets startPosition to exactly that
value; in either case a Finished state becomes Paused. -/
theorem claim8_seekTo (e : Ext) (c d x : ℚ) :
    (getCurrentTime e = .num c → getDuration e = .num d →
      (seekTo .undefined e).1.startPosition = (if d ≤ c then .num 0 else .num c)) ∧
    ((seekTo (.num x) e).1.startPosition = .num x) ∧
    (e.state = some PState.finished →
      (seekTo .undefined e).1.state = some PState.paused ∧
      (seekTo (.num x) e).1.state = some PState.paused) := by
  refine ⟨fun hc hd => ?_, ?_, fun h => ⟨?_, ?_⟩⟩
  · simp only [seekTo, JSVal.isNullish, hc, hd, JSVal.jge, JSVal.toNum, decide_eq_true_eq]
    by_cases hdc : d ≤ c
    · simp only [if_pos hdc]
      split <;> simp [setState]
      split <;> rfl
    · simp only [if_neg hdc]
      split <;> simp [setState]
      split <;> rfl
  · simp only [seekTo, JSVal.isNullish]
    split <;> simp [setState]
    split <;> rfl
  · simp [seekTo, h]
  · simp [seekTo, h, JSVal.isNullish]

/-- Witness for claim C8 at a concrete Finished state with duration 20 and
explicit seek target 4: the default seek wraps to 0 and both seeks revive the
state to Paused. -/
theorem claim8_witness :
    (seekTo .undefined { witnessPlaying with state := some PState.finished }).1.startPosition =
      (if (20 : ℚ) ≤ 20 then .num 0 else .num 20) ∧
    (seekTo (.num 4) { witnessPlaying with state := some PState.finished }).1.startPosition =
      .num 4 ∧
    (seekTo .undefined { witnessPlaying with state := some PState.finished }).1.state =
      some PState.paused :=
  ⟨(claim8_seekTo { witnessPlaying with state := some PState.finished } 20 20 4).1 rfl rfl,
   (claim8_seekTo { witnessPlaying with state := some PState.finished } 20 20 4).2.1,
   ((claim8_seekTo { witnessPlaying with state := some PState.finished } 20 20 4).2.2 rfl).1⟩

end WS

namespace WS

/-- The state after load(peaks, 10): Paused at position 0. -/
def loaded10 : Ext := (load none (.num 10) initial).1

/-- The state after load(peaks, 10) then play(2) with no tick yet delivered:
Playing with both clock anchors still null. -/
def playingNoTick : Ext := (play (.num 2) .undefined loaded10).1

/-- Counterexample to claim C4: after play(2) on a 10 second clip, before any
tick, the state is Playing with lastPlay and clockTime unset, yet
getCurrentTime returns the number 2 (the null anchors coerce to a zero
elapsed time), not an unset or undefined value. -/
theorem claim4_counterexample :
    playingNoTick.state = some PState.playing ∧
    playingNoTick.lastPlay = .null ∧
    playingNoTick.clockTime = .null ∧
    getCurrentTime playingNoTick = .num 2 ∧
    getCurrentTime playingNoTick ≠ .undefined ∧
    getCurrentTime playingNoTick ≠ .null := by
  have h : playingNoTick.state = some PState.playing ∧ playingNoTick.lastPlay = .null ∧
      playingNoTick.clockTime = .null ∧ getCurrentTime playingNoTick = .num 2 := by
    refine ⟨?_, ?_, ?_, ?_⟩ <;>
    · simp [playingNoTick, loaded10, load, setPeaks, setState, play, seekTo, onAudioProcess,
        updateClock, pause, getCurrentTime, getPlayedTime, getDuration, initial, JSVal.add,
        JSVal.sub, JSVal.mul, JSVal.div, JSVal.jge, JSVal.toNum, JSVal.isNullish, JSVal.truthy,
        JSVal.orElse]
      norm_num
  exact ⟨h.1, h.2.1, h.2.2.1, h.2.2.2, by rw [h.2.2.2]; simp, by rw [h.2.2.2]; simp⟩

/-- Claim C4 as amended: while Playing with both clock anchors unset,
getCurrentTime returns the numeric startPosition unchanged, because the null
anchors coerce to a zero elapsed time. -/
theorem claim4_amended (e : Ext) (p r : ℚ)
    (hst : e.state = some PState.playing) (hl : e.lastPlay = .null)
    (hc : e.clockTime = .null) (hp : e.startPosition = .num p)
    (hr : e.playbackRate = .num r) :
    getCurrentTime e = .num p := by
  simp [getCurrentTime, hst, getPlayedTime, hl, hc, hp, hr, JSVal.add, JSVal.sub, JSVal.mul,
    JSVal.toNum]

/-- Witness for the amended claim C4 at a concrete anchor-free Playing state. -/
theorem claim4_witness :
    getCurrentTime { witnessPlaying with lastPlay := .null, clockTime := .null } = .num 3 :=
  claim4_amended { witnessPlaying with lastPlay := .null, clockTime := .null } 3 2
    rfl rfl rfl rfl rfl

/-- The state after load(peaks, 10) then seekTo(15). -/
def seeked15 : Ext := (seekTo (.num 15) loaded10).1

/-- Counterexample to claim C5: an explicit seekTo(15) on a clip of duration
10 stores startPosition 15, outside the interval from 0 to the duration, so
seekTo does not clamp. -/
theorem claim5_counterexample :
    seeked15.startPosition = .num 15 ∧
    seeked15.explicitDuration = .num 10 ∧
    ¬ (15 : ℚ) ≤ 10 := by
  refine ⟨?_, ?_, by norm_num⟩ <;>
  · simp [seeked15, loaded10, load, setPeaks, setState, seekTo, initial, JSVal.isNullish]

/-- Claim C5 as amended: load initialises startPosition to 0, and a seekTo
with no explicit target keeps startPosition inside the interval from 0 to the
duration provided the current time and duration are nonnegative numbers; an
explicit seek target is stored unclamped. -/
theorem claim5_amended (e : Ext) (c d : ℚ) (pk : Option (List ℚ)) :
    ((load pk (.num d) e).1.startPosition = .num 0) ∧
    (getCurrentTime e = .num c → getDuration e = .num d → 0 ≤ c → 0 ≤ d →
      ∃ y, (seekTo .undefined e).1.startPosition = .num y ∧ 0 ≤ y ∧ y ≤ d) := by
  constructor
  · simp only [load, setPeaks, setState]
    split <;> rfl
  · intro hc hd h0c h0d
    simp only [seekTo, JSVal.isNullish, hc, hd, JSVal.jge, JSVal.toNum, decide_eq_true_eq]
    by_cases hdc : d ≤ c
    · refine ⟨0, ?_, le_refl 0, h0d⟩
      simp only [if_pos hdc]
      split <;> simp [setState]
      split <;> rfl
    · refine ⟨c, ?_, h0c, le_of_not_le hdc⟩
      simp only [if_neg hdc]
      split <;> simp [setState]
      split <;> rfl

/-- Witness for the amended claim C5: on the loaded clip of duration 10, a
default seek lands inside the valid range. -/
theorem claim5_witness :
    (load none (.num 10) initial).1.startPosition = .num 0 ∧
    ∃ y, (seekTo .undefined loaded10).1.startPosition = .num y ∧ 0 ≤ y ∧ y ≤ 10 :=
  ⟨(claim5_amended initial 0 10 none).1,
   (claim5_amended loaded10 0 10 none).2 rfl rfl (le_refl 0) (by norm_num)⟩

end WS

namespace WS

/-- The state after load(peaks, 0) then seekTo(5): Paused at position 5 on a
clip whose declared duration is 0. -/
def zeroDurationSeeked : Ext := (seekTo (.num 5) (load none (.num 0) initial).1).1

/-- Counterexample to claim C9: with duration 0 and current time 5 the
percent computation divides 5 by 0, which in JavaScript is Infinity; Infinity
is truthy, so the or-zero guard does not apply and getPlayedPercents returns
Infinity, an invalid value, rather than 0. -/
theorem claim9_counterexample :
    getDuration zeroDurationSeeked = .num 0 ∧
    getCurrentTime zeroDurationSeeked = .num 5 ∧
    getPlayedPercents zeroDurationSeeked = .inf ∧
    getPlayedPercents zeroDurationSeeked ≠ .num 0 := by
  have h : getDuration zeroDurationSeeked = .num 0 ∧
      getCurrentTime zeroDurationSeeked = .num 5 ∧
      getPlayedPercents zeroDurationSeeked = .inf := by
    refine ⟨?_, ?_, ?_⟩ <;>
    · simp [zeroDurationSeeked, load, setPeaks, setState, seekTo, getPlayedPercents,
        getCurrentTime, getPlayedTime, getDuration, initial, JSVal.add, JSVal.sub, JSVal.mul,
        JSVal.div, JSVal.jge, JSVal.toNum, JSVal.isNullish, JSVal.truthy, JSVal.orElse]
  exact ⟨h.1, h.2.1, h.2.2, by rw [h.2.2]; simp⟩

/-- Claim C9 as amended: getPlayedPercents returns 1 while Finished;
otherwise it returns currentTime divided by duration, where an undefined
duration always yields 0 (the quotient is NaN, which the or-zero guard maps
to 0), a zero duration yields 0 exactly when the current time is also 0, and
a nonzero numeric duration yields the exact quotient. -/
theorem claim9_amended (e : Ext) (c d : ℚ) :
    (e.state = some PState.finished → getPlayedPercents e = .num 1) ∧
    (e.state ≠ some PState.finished → getDuration e = .undefined →
      getPlayedPercents e = .num 0) ∧
    (e.state ≠ some PState.finished → getCurrentTime e = .num 0 → getDuration e = .num 0 →
      getPlayedPercents e = .num 0) ∧
    (e.state ≠ some PState.finished → getCurrentTime e = .num c → getDuration e = .num d →
      d ≠ 0 → getPlayedPercents e = .num (c / d)) := by
  refine ⟨fun h => ?_, fun h hd => ?_, fun h hc hd => ?_, fun h hc hd hd0 => ?_⟩
  · simp [getPlayedPercents, h]
  · cases hcur : getCurrentTime e <;>
      simp [getPlayedPercents, h, hcur, hd, JSVal.div, JSVal.toNum, JSVal.orElse, JSVal.truthy]
  · simp [getPlayedPercents, h, hc, hd, JSVal.div, JSVal.toNum, JSVal.orElse, JSVal.truthy]
  · simp only [getPlayedPercents, if_neg h, hc, hd]
    by_cases hq : c / d = 0
    · simp [JSVal.div, JSVal.toNum, JSVal.orElse, JSVal.truthy, hd0, hq]
    · simp [JSVal.div, JSVal.toNum, JSVal.orElse, JSVal.truthy, hd0, hq]

/-- Witness for the amended claim C9 at the concrete Playing state with
current time 11 and duration 20. -/
theorem claim9_witness :
    getPlayedPercents witnessPlaying = .num ((3 + (5 - 1) * 2) / 20) :=
  (claim9_amended witnessPlaying (3 + (5 - 1) * 2) 20).2.2.2 (by simp [witnessPlaying])
    (by simp [getCurrentTime, witnessPlaying, getPlayedTime, JSVal.add, JSVal.sub, JSVal.mul,
      JSVal.toNum])
    rfl (by norm_num)

end WS

namespace WS

@[simp]
lemma pause_count_finish (e : Ext) : (pause e).2.count Ev.finish = 0 := by
  rw [pause_events]
  simp [List.count_cons]

@[simp]
lemma seekTo_events (s : JSVal) (e : Ext) : (seekTo s e).2 = [] := by
  simp only [seekTo]
  split
  · simp only [setState]
    split <;> simp
  · rfl

lemma setState_of_ne (s : PState) (e : Ext) (h : e.state ≠ some s) :
    setState s e = ({ e with state := some s }, if s = PState.finished then [Ev.finish] else []) := by
  simp [setState, h]

/-- Claim C6: while Playing, a tick whose computed current time reaches the
duration fires exactly one finish event; the state becomes Finished, where
getPlayedPercents returns 1, and the operations that can follow while the
clock is de-armed (pause, seekTo) fire no further finish event. -/
theorem claim6_finish (e : Ext) (tm : JSVal) (c D : ℚ)
    (hst : e.state = some PState.playing)
    (hD : getDuration e = .num D)
    (hc : getCurrentTime (updateClock tm e) = .num c)
    (hcD : D ≤ c) :
    ((onAudioProcess tm e).2.count Ev.finish = 1) ∧
    ((onAudioProcess tm e).1.state = some PState.finished) ∧
    (getPlayedPercents (onAudioProcess tm e).1 = .num 1) ∧
    ((pause (onAudioProcess tm e).1).2.count Ev.finish = 0) ∧
    (∀ s, (seekTo s (onAudioProcess tm e).1).2.count Ev.finish = 0) := by
  have hgd : getDuration (updateClock tm e) = .num D := by
    simpa [getDuration] using hD
  have hcond : JSVal.jge (getCurrentTime (updateClock tm e)) (getDuration (updateClock tm e)) =
      true := by
    rw [hc, hgd]
    simp [JSVal.jge, JSVal.toNum, hcD]
  have hform : onAudioProcess tm e =
      ((setState PState.finished (pause (updateClock tm e)).1).1,
        (pause (updateClock tm e)).2 ++ (setState PState.finished (pause (updateClock tm e)).1).2) := by
    simp only [onAudioProcess, hcond]
    simp
  have hset : setState PState.finished (pause (updateClock tm e)).1 =
      ({ (pause (updateClock tm e)).1 with state := some PState.finished }, [Ev.finish]) := by
    rw [setState_of_ne]
    · simp
    · rw [pause_state]
      simp
  refine ⟨?_, ?_, ?_, ?_, ?_⟩
  · rw [hform]
    simp [hset, List.count_append]
  · rw [hform]
    simp [hset]
  · rw [hform]
    simp [getPlayedPercents, hset]
  · exact pause_count_finish _
  · intro s
    simp

/-- The Playing state reached by play(9.5) on a loaded 10 second clip after
an anchoring tick at 0 ms. -/
def c6anchored : Ext :=
  { playbackRate := .num 1
    volume := .num 1
    scheduledPause := .undefined
    clockTime := .num 0
    startPosition := .num (19/2)
    lastPlay := .num 0
    explicitDuration := .num 10
    state := some PState.playing
    peaks := none }

/-- Witness for claim C6: playing from position 9.5 on a 10 second clip,
anchored by a tick at 0 ms, the tick at 1000 ms computes current time 10.5,
which is past the duration boundary, and fires exactly one finish. -/
theorem claim6_witness :
    ((onAudioProcess (.num 1000) c6anchored).2.count Ev.finish = 1) ∧
    (getPlayedPercents (onAudioProcess (.num 1000) c6anchored).1 = .num 1) := by
  have hc : getCurrentTime (updateClock (.num 1000) c6anchored) = .num (21/2) := by
    simp [c6anchored, updateClock, getCurrentTime, getPlayedTime, JSVal.add, JSVal.sub,
      JSVal.mul, JSVal.div, JSVal.isNullish, JSVal.toNum]
    norm_num
  have h := claim6_finish c6anchored (.num 1000) (21/2) 10 rfl rfl hc (by norm_num)
  exact ⟨h.1, h.2.2.1⟩

end WS

namespace WS

/-- The state after load(peaks, 10) then play(0, 0): Playing with
scheduledPause set to the number 0. -/
def zeroScheduled : Ext := (play (.num 0) (.num 0) loaded10).1

/-- Counterexample to claim C7: with scheduledPause set to 0, the tick at
1000 ms computes current time 0, which reaches the scheduled pause value and
is below the duration 10, yet the clock does not pause: 0 is falsy in the
guard, so the backend stays Playing and fires no pause event. -/
theorem claim7_counterexample :
    zeroScheduled.scheduledPause = .num 0 ∧
    getCurrentTime (onAudioProcess (.num 1000) zeroScheduled).1 = .num 0 ∧
    (0 : ℚ) ≤ 0 ∧ (0 : ℚ) < 10 ∧
    (onAudioProcess (.num 1000) zeroScheduled).1.state = some PState.playing ∧
    (onAudioProcess (.num 1000) zeroScheduled).2.count Ev.pause = 0 ∧
    (onAudioProcess (.num 1000) zeroScheduled).1.scheduledPause = .num 0 := by
  have hz : zeroScheduled =
      { playbackRate := .num 1
        volume := .num 1
        scheduledPause := .num 0
        clockTime := .null
        startPosition := .num 0
        lastPlay := .null
        explicitDuration := .num 10
        state := some PState.playing
        peaks := none } := by
    simp [zeroScheduled, loaded10, load, setPeaks, setState, play, seekTo, onAudioProcess,
      updateClock, pause, getCurrentTime, getPlayedTime, getDuration, initial, JSVal.add,
      JSVal.sub, JSVal.mul, JSVal.div, JSVal.jge, JSVal.toNum, JSVal.isNullish, JSVal.truthy,
      JSVal.orElse]
    norm_num
  rw [hz]
  have ht : onAudioProcess (.num 1000)
      { playbackRate := .num 1
        volume := .num 1
        scheduledPause := .num 0
        clockTime := .null
        startPosition := .num 0
        lastPlay := .null
        explicitDuration := .num 10
        state := some PState.playing
        peaks := none } =
      ({ playbackRate := .num 1
         volume := .num 1
         scheduledPause := .num 0
         clockTime := .num 1
         startPosition := .num 0
         lastPlay := .num 1
         explicitDuration := .num 10
         state := some PState.playing
         peaks := none }, [Ev.audioprocess (.num 0)]) := by
    simp [onAudioProcess, updateClock, pause, setState, getCurrentTime, getPlayedTime,
      getDuration, JSVal.add, JSVal.sub, JSVal.mul, JSVal.div, JSVal.jge, JSVal.toNum,
      JSVal.isNullish, JSVal.truthy]
  rw [ht]
  refine ⟨rfl, ?_, le_refl 0, by norm_num, rfl, ?_, rfl⟩
  · simp [getCurrentTime, getPlayedTime, JSVal.add, JSVal.sub, JSVal.mul, JSVal.toNum]
  · simp [List.count_cons]

/-- Claim C7 as amended: for every nonzero numeric scheduledPause value, a
tick while Playing whose computed current time reaches it while staying below
the duration auto-pauses the clock: the state becomes Paused, a pause event
is emitted, no finish event is emitted, and scheduledPause is cleared. -/
theorem claim7_amended (e : Ext) (tm : JSVal) (s c D : ℚ)
    (hst : e.state = some PState.playing)
    (hsp : e.scheduledPause = .num s) (hs0 : s ≠ 0)
    (hD : getDuration e = .num D)
    (hc : getCurrentTime (updateClock tm e) = .num c)
    (hcD : c < D) (hsc : s ≤ c) :
    ((onAudioProcess tm e).1.state = some PState.paused) ∧
    ((onAudioProcess tm e).1.scheduledPause = .null) ∧
    (Ev.pause ∈ (onAudioProcess tm e).2) ∧
    ((onAudioProcess tm e).2.count Ev.finish = 0) := by
  have hgd : getDuration (updateClock tm e) = .num D := by
    simpa [getDuration] using hD
  have hsp1 : (updateClock tm e).scheduledPause = .num s := by
    simpa using hsp
  have hcond1 : JSVal.jge (getCurrentTime (updateClock tm e)) (getDuration (updateClock tm e)) =
      false := by
    rw [hc, hgd]
    simp [JSVal.jge, JSVal.toNum]
    linarith
  have hcond2 : (updateClock tm e).scheduledPause.truthy ∧
      JSVal.jge (getCurrentTime (updateClock tm e)) (updateClock tm e).scheduledPause := by
    rw [hc, hsp1]
    exact ⟨by simp [JSVal.truthy, hs0], by simp [JSVal.jge, JSVal.toNum, hsc]⟩
  have hform : onAudioProcess tm e = pause (updateClock tm e) := by
    simp only [onAudioProcess, hcond1]
    simp only [Bool.false_eq_true, if_false]
    rw [if_pos hcond2]
  rw [hform]
  refine ⟨pause_state _, pause_scheduledPause _, ?_, pause_count_finish _⟩
  rw [pause_events]
  simp

/-- The Playing state of a play(0, 5) call on a 10 second clip after an
anchoring tick at 0 ms. -/
def c7anchored : Ext :=
  { playbackRate := .num 1
    volume := .num 1
    scheduledPause := .num 5
    clockTime := .num 0
    startPosition := .num 0
    lastPlay := .num 0
    explicitDuration := .num 10
    state := some PState.playing
    peaks := none }

/-- Witness for the amended claim C7: play(0, 5) on a 10 second clip,
anchored at 0 ms; the tick at 6000 ms computes current time 6, which reaches
the scheduled pause 5 and stays below the duration 10. -/
theorem claim7_witness :
    ((onAudioProcess (.num 6000) c7anchored).1.state = some PState.paused) ∧
    ((onAudioProcess (.num 6000) c7anchored).1.scheduledPause = .null) := by
  have hc : getCurrentTime (updateClock (.num 6000) c7anchored) = .num 6 := by
    simp [c7anchored, updateClock, getCurrentTime, getPlayedTime, JSVal.add, JSVal.sub,
      JSVal.mul, JSVal.div, JSVal.isNullish, JSVal.toNum]
    norm_num
  have h := claim7_amended c7anchored (.num 6000) 5 6 10 rfl rfl (by norm_num) rfl hc
    (by norm_num) (by norm_num)
  exact ⟨h.1, h.2.1⟩

end WS

namespace WS

/-- The trace for claim C3: load a 10 second clip, play from 0, deliver
ticks at 0 ms and 1000 ms, then call pause twice. -/
def c3afterPlay : Ext := (play (.num 0) .undefined loaded10).1

def c3afterTick1 : Ext := (onAudioProcess (.num 0) c3afterPlay).1

def c3afterTick2 : Ext := (onAudioProcess (.num 1000) c3afterTick1).1

def c3firstPause : Ext × List Ev := pause c3afterTick2

def c3secondPause : Ext × List Ev := pause c3firstPause.1

/-- Claim C3 evaluated at its failing input: after play(0), ticks at 0 ms
and 1000 ms, the first pause folds the elapsed second into startPosition
(now 1), but a second pause adds the same elapsed second again (now 2),
because pause folds (clockTime - lastPlay) * playbackRate unconditionally
and nothing resets the anchors on pause.  The second pause still emits a
pause event.  So the second pause is not a no-op on startPosition. -/
theorem claim3_code_bug :
    c3firstPause.1.startPosition = .num 1 ∧
    c3secondPause.1.startPosition = .num 2 ∧
    c3secondPause.1.startPosition ≠ c3firstPause.1.startPosition ∧
    Ev.pause ∈ c3secondPause.2 := by
  have h1 : c3afterPlay =
      { playbackRate := .num 1
        volume := .num 1
        scheduledPause := .undefined
        clockTime := .null
        startPosition := .num 0
        lastPlay := .null
        explicitDuration := .num 10
        state := some PState.playing
        peaks := none } := by
    simp [c3afterPlay, loaded10, load, setPeaks, setState, play, seekTo, onAudioProcess,
      updateClock, pause, getCurrentTime, getPlayedTime, getDuration, initial, JSVal.add,
      JSVal.sub, JSVal.mul, JSVal.div, JSVal.jge, JSVal.toNum, JSVal.isNullish, JSVal.truthy,
      JSVal.orElse]
    norm_num
  have h2 : c3afterTick1 =
      { playbackRate := .num 1
        volume := .num 1
        scheduledPause := .undefined
        clockTime := .num 0
        startPosition := .num 0
        lastPlay := .num 0
        explicitDuration := .num 10
        state := some PState.playing
        peaks := none } := by
    simp [c3afterTick1, h1, onAudioProcess, updateClock, pause, setState, getCurrentTime,
      getPlayedTime, getDuration, JSVal.add, JSVal.sub, JSVal.mul, JSVal.div, JSVal.jge,
      JSVal.toNum, JSVal.isNullish, JSVal.truthy]
    norm_num
  have h3 : c3afterTick2 =
      { playbackRate := .num 1
        volume := .num 1
        scheduledPause := .undefined
        clockTime := .num 1
        startPosition := .num 0
        lastPlay := .num 0
        explicitDuration := .num 10
        state := some PState.playing
        peaks := none } := by
    simp [c3afterTick2, h2, onAudioProcess, updateClock, pause, setState, getCurrentTime,
      getPlayedTime, getDuration, JSVal.add, JSVal.sub, JSVal.mul, JSVal.div, JSVal.jge,
      JSVal.toNum, JSVal.isNullish, JSVal.truthy]
  have h4 : c3firstPause.1 =
      { playbackRate := .num 1
        volume := .num 1
        scheduledPause := .null
        clockTime := .num 1
        startPosition := .num 1
        lastPlay := .num 0
        explicitDuration := .num 10
        state := some PState.paused
        peaks := none } := by
    simp [c3firstPause, h3, pause, setState, getPlayedTime, JSVal.add, JSVal.sub, JSVal.mul,
      JSVal.toNum]
  have h5 : c3secondPause.1.startPosition = .num 2 := by
    simp [c3secondPause, h4, pause, setState, getPlayedTime, JSVal.add, JSVal.sub, JSVal.mul,
      JSVal.toNum]
    norm_num
  refine ⟨by rw [h4], h5, ?_, ?_⟩
  · rw [h4, h5]
    simp
  · simp [c3secondPause, pause_events]

end WS

namespace WS

/-! Driver for claim C1: the clock source delivers timestamps in
milliseconds; the session below feeds tick times expressed in seconds,
multiplied by 1000 on delivery exactly as the animation-frame driver hands
millisecond timestamps to onAudioProcess. -/

/-- Deliver one tick at t seconds of wall-clock time (1000 t milliseconds). -/
def deliverTick (t : ℚ) (e : Ext) : Ext :=
  (onAudioProcess (.num (1000 * t)) e).1

/-- Deliver a list of ticks in order. -/
def runTicks (ts : List ℚ) (e : Ext) : Ext :=
  ts.foldl (fun e t => deliverTick t e) e

/-- One playback segment: a setPlaybackRate call followed by its ticks. -/
def segStep (e : Ext) (seg : ℚ × List ℚ) : Ext :=
  runTicks seg.2 ((setPlaybackRate (.num seg.1) e).1)

/-- A full session: play from position p, then run each segment. -/
def session (p : ℚ) (segs : List (ℚ × List ℚ)) (e : Ext) : Ext :=
  segs.foldl segStep ((play (.num p) .undefined e).1)

/-- The last tick time of a list, with the given default. -/
def lastOf (a : ℚ) : List ℚ → ℚ
  | [] => a
  | t :: ts => lastOf t ts

/-- The wall-clock span covered by the ticks of one segment: last tick minus
first tick, and 0 for a segment with no tick. -/
def span : List ℚ → ℚ
  | [] => 0
  | a :: ts => lastOf a ts - a

/-- The total position advance of a session: the sum over segments of the
segment rate times the segment wall-clock span. -/
def sessionSum : List (ℚ × List ℚ) → ℚ
  | [] => 0
  | seg :: rest => seg.1 * span seg.2 + sessionSum rest

/-- All tick times of a session in delivery order. -/
def allTicks (segs : List (ℚ × List ℚ)) : List ℚ :=
  (segs.map Prod.snd).flatten

/-- The within-segment boundedness condition: every tick of the segment
computes a current time below the duration (the first tick anchors the
clock, so it computes the segment start position). -/
def ticksOK (D P r : ℚ) : List ℚ → Prop
  | [] => True
  | a :: ts => ∀ t ∈ a :: ts, P + (t - a) * r < D

/-- The whole-session boundedness condition, tracking the accumulated
position across segments: each segment starts below the duration and all its
ticks stay below the duration. -/
def sessionOK (D : ℚ) : ℚ → List (ℚ × List ℚ) → Prop
  | _, [] => True
  | P, seg :: rest => P < D ∧ ticksOK D P seg.1 seg.2 ∧
      sessionOK D (P + seg.1 * span seg.2) rest

/-- The clock value after a list of ticks, starting from the given value. -/
def clockSeq (c : JSVal) : List ℚ → JSVal
  | [] => c
  | t :: ts => clockSeq (.num t) ts

lemma clockSeq_num (x : ℚ) (ts : List ℚ) : clockSeq (.num x) ts = .num (lastOf x ts) := by
  induction ts generalizing x with
  | nil => rfl
  | cons t ts ih => simp [clockSeq, lastOf, ih]

lemma play_explicit (e : Ext) (p D r : ℚ)
    (hst : e.state = some PState.paused)
    (hD : e.explicitDuration = .num D) (hr : e.playbackRate = .num r) (hpD : p < D) :
    (play (.num p) .undefined e).1 =
      { e with
        startPosition := .num p
        scheduledPause := .undefined
        state := some PState.playing
        lastPlay := .null
        clockTime := .null } := by
  simp [play, seekTo, setState, onAudioProcess, updateClock, getCurrentTime, getPlayedTime,
    getDuration, JSVal.add, JSVal.sub, JSVal.mul, JSVal.jge, JSVal.toNum, JSVal.isNullish,
    JSVal.truthy, hst, hD, hr, hpD.not_le]

lemma deliverTick_fresh (e : Ext) (P D r t : ℚ)
    (hst : e.state = some PState.playing) (hsp : e.startPosition = .num P)
    (hr : e.playbackRate = .num r) (hD : e.explicitDuration = .num D)
    (hsch : e.scheduledPause = .undefined) (hl : e.lastPlay = .null) (hP : P < D) :
    deliverTick t e = { e with clockTime := .num t, lastPlay := .num t } := by
  have h1000 : (1000 : ℚ) * t / 1000 = t := by ring
  simp [deliverTick, onAudioProcess, updateClock, getCurrentTime, getPlayedTime, getDuration,
    JSVal.add, JSVal.sub, JSVal.mul, JSVal.div, JSVal.jge, JSVal.toNum, JSVal.isNullish,
    JSVal.truthy, hst, hsp, hr, hD, hsch, hl, h1000, hP.not_le,
    (show ¬ (1000 : ℚ) = 0 by norm_num)]

lemma deliverTick_anchored (e : Ext) (P D r a t : ℚ)
    (hst : e.state = some PState.playing) (hsp : e.startPosition = .num P)
    (hr : e.playbackRate = .num r) (hD : e.explicitDuration = .num D)
    (hsch : e.scheduledPause = .undefined) (hl : e.lastPlay = .num a)
    (hok : P + (t - a) * r < D) :
    deliverTick t e = { e with clockTime := .num t } := by
  have h1000 : (1000 : ℚ) * t / 1000 = t := by ring
  simp [deliverTick, onAudioProcess, updateClock, getCurrentTime, getPlayedTime, getDuration,
    JSVal.add, JSVal.sub, JSVal.mul, JSVal.div, JSVal.jge, JSVal.toNum, JSVal.isNullish,
    JSVal.truthy, hst, hsp, hr, hD, hsch, hl, h1000, hok.not_le,
    (show ¬ (1000 : ℚ) = 0 by norm_num)]

end WS

namespace WS

lemma runTicks_anchored (ts : List ℚ) (e : Ext) (P D r a : ℚ)
    (hst : e.state = some PState.playing) (hsp : e.startPosition = .num P)
    (hr : e.playbackRate = .num r) (hD : e.explicitDuration = .num D)
    (hsch : e.scheduledPause = .undefined) (hl : e.lastPlay = .num a)
    (hok : ∀ t ∈ ts, P + (t - a) * r < D) :
    runTicks ts e = { e with clockTime := clockSeq e.clockTime ts } := by
  induction ts generalizing e with
  | nil => rfl
  | cons t ts ih =>
    have hstep : deliverTick t e = { e with clockTime := .num t } :=
      deliverTick_anchored e P D r a t hst hsp hr hD hsch hl (hok t (by simp))
    have hrest : runTicks ts { e with clockTime := JSVal.num t } =
        { e with clockTime := clockSeq (.num t) ts } := by
      have := ih { e with clockTime := JSVal.num t } hst hsp hr hD hsch hl
        (fun u hu => hok u (by simp [hu]))
      simpa using this
    calc runTicks (t :: ts) e = runTicks ts (deliverTick t e) := by
          simp [runTicks]
      _ = { e with clockTime := clockSeq (.num t) ts } := by rw [hstep, hrest]
      _ = { e with clockTime := clockSeq e.clockTime (t :: ts) } := by rw [clockSeq]

lemma runTicks_fresh_cons (e : Ext) (P D r a : ℚ) (ts : List ℚ)
    (hst : e.state = some PState.playing) (hsp : e.startPosition = .num P)
    (hr : e.playbackRate = .num r) (hD : e.explicitDuration = .num D)
    (hsch : e.scheduledPause = .undefined) (hl : e.lastPlay = .null) (hP : P < D)
    (hok : ∀ t ∈ ts, P + (t - a) * r < D) :
    runTicks (a :: ts) e = { e with clockTime := .num (lastOf a ts), lastPlay := .num a } := by
  have hstep : deliverTick a e = { e with clockTime := .num a, lastPlay := .num a } :=
    deliverTick_fresh e P D r a hst hsp hr hD hsch hl hP
  have hrest : runTicks ts { e with clockTime := JSVal.num a, lastPlay := JSVal.num a } =
      { e with clockTime := clockSeq (.num a) ts, lastPlay := .num a } := by
    have := runTicks_anchored ts { e with clockTime := JSVal.num a, lastPlay := JSVal.num a }
      P D r a hst hsp hr hD hsch rfl hok
    simpa using this
  calc runTicks (a :: ts) e = runTicks ts (deliverTick a e) := by simp [runTicks]
    _ = { e with clockTime := clockSeq (.num a) ts, lastPlay := .num a } := by rw [hstep, hrest]
    _ = { e with clockTime := .num (lastOf a ts), lastPlay := .num a } := by rw [clockSeq_num]

attribute [ext] Ext

lemma pause_playbackRate (e : Ext) : (pause e).1.playbackRate = e.playbackRate := by
  simp only [pause, setState]
  split <;> rfl

lemma pause_volume (e : Ext) : (pause e).1.volume = e.volume := by
  simp only [pause, setState]
  split <;> rfl

lemma pause_clockTime (e : Ext) : (pause e).1.clockTime = e.clockTime := by
  simp only [pause, setState]
  split <;> rfl

lemma pause_lastPlay (e : Ext) : (pause e).1.lastPlay = e.lastPlay := by
  simp only [pause, setState]
  split <;> rfl

lemma pause_explicitDuration (e : Ext) : (pause e).1.explicitDuration = e.explicitDuration := by
  simp only [pause, setState]
  split <;> rfl

lemma pause_peaks (e : Ext) : (pause e).1.peaks = e.peaks := by
  simp only [pause, setState]
  split <;> rfl

lemma pause_startPosition (e : Ext) :
    (pause e).1.startPosition = JSVal.add e.startPosition (getPlayedTime e) := by
  simp only [pause, setState]
  split <;> rfl

lemma pause_explicit (e : Ext) (P g : ℚ)
    (hsp : e.startPosition = .num P) (hg : getPlayedTime e = .num g) :
    (pause e).1 =
      { e with
        scheduledPause := .null
        startPosition := .num (P + g)
        state := some PState.paused } := by
  ext1
  · rw [pause_playbackRate]
  · rw [pause_volume]
  · rw [pause_scheduledPause]
  · rw [pause_clockTime]
  · rw [pause_startPosition, hsp, hg]
    simp [JSVal.add, JSVal.toNum]
  · rw [pause_lastPlay]
  · rw [pause_explicitDuration]
  · rw [pause_state]
  · rw [pause_peaks]

lemma play_undef_explicit (e : Ext) (p D r : ℚ)
    (hst : e.state = some PState.paused) (hsp : e.startPosition = .num p)
    (hD : e.explicitDuration = .num D) (hr : e.playbackRate = .num r) (hpD : p < D) :
    (play .undefined .undefined e).1 =
      { e with
        startPosition := .num p
        scheduledPause := .undefined
        state := some PState.playing
        lastPlay := .null
        clockTime := .null } := by
  simp [play, seekTo, setState, onAudioProcess, updateClock, getCurrentTime, getPlayedTime,
    getDuration, JSVal.add, JSVal.sub, JSVal.mul, JSVal.jge, JSVal.toNum, JSVal.isNullish,
    JSVal.truthy, hst, hsp, hD, hr, hpD.not_le]

lemma setPlaybackRate_playing (e : Ext) (P D g r : ℚ)
    (hst : e.state = some PState.playing) (hsp : e.startPosition = .num P)
    (hD : e.explicitDuration = .num D)
    (hg : getPlayedTime e = .num g) (hPg : P + g < D) (hr : r ≠ 0) :
    (setPlaybackRate (.num r) e).1 =
      { e with
        playbackRate := .num r
        startPosition := .num (P + g)
        scheduledPause := .undefined
        state := some PState.playing
        lastPlay := .null
        clockTime := .null } := by
  have hpaused : isPaused e = false := by
    simp [isPaused, hst]
  have hv : JSVal.orElse (.num r) (.num 1) = .num r := by
    simp [JSVal.orElse, JSVal.truthy, hr]
  have hp := pause_explicit e P g hsp hg
  simp only [setPlaybackRate, hpaused, Bool.false_eq_true, if_false, hv, hp]
  rw [play_undef_explicit _ (P + g) D r rfl rfl (by simpa using hD) rfl hPg]

end WS

namespace WS

lemma session_segments (segs : List (ℚ × List ℚ)) :
    ∀ (e : Ext) (P D g : ℚ),
      e.state = some PState.playing → e.startPosition = .num P →
      e.explicitDuration = .num D → e.scheduledPause = .undefined →
      getPlayedTime e = .num g →
      sessionOK D (P + g) segs → (∀ seg ∈ segs, seg.1 ≠ 0) →
      getCurrentTime (segs.foldl segStep e) = .num (P + g + sessionSum segs) := by
  induction segs with
  | nil =>
    intro e P D g hst hsp _ _ hg _ _
    simp only [List.foldl_nil, getCurrentTime, hst, hsp, hg, JSVal.add, JSVal.toNum, sessionSum]
    exact congrArg JSVal.num (by ring)
  | cons seg rest ih =>
    obtain ⟨r, ts⟩ := seg
    intro e P D g hst hsp hD hsch hg hok hrates
    obtain ⟨hPD, hticks, hrest⟩ := hok
    have hr0 : r ≠ 0 := hrates (r, ts) (by simp)
    have hrates2 : ∀ s ∈ rest, s.1 ≠ 0 := fun s hs => hrates s (by simp [hs])
    have hsr := setPlaybackRate_playing e P D g r hst hsp hD hg hPD hr0
    rw [List.foldl_cons]
    cases ts with
    | nil =>
      have hseg : segStep e (r, ([] : List ℚ)) =
          { e with
            playbackRate := .num r
            startPosition := .num (P + g)
            scheduledPause := .undefined
            state := some PState.playing
            lastPlay := .null
            clockTime := .null } := by
        simp only [segStep, runTicks, List.foldl_nil, hsr]
      rw [hseg]
      have hg2 : getPlayedTime
          { e with
            playbackRate := .num r
            startPosition := .num (P + g)
            scheduledPause := .undefined
            state := some PState.playing
            lastPlay := .null
            clockTime := .null } = JSVal.num ((0 - 0) * r) := by
        simp [getPlayedTime, JSVal.sub, JSVal.mul, JSVal.toNum]
      have hsess : sessionOK D ((P + g) + (0 - 0) * r) rest := by
        have heq : (P + g) + r * span ([] : List ℚ) = (P + g) + (0 - 0) * r := by
          simp [span]
        rw [heq] at hrest
        exact hrest
      have hres := ih
        { e with
          playbackRate := .num r
          startPosition := .num (P + g)
          scheduledPause := .undefined
          state := some PState.playing
          lastPlay := .null
          clockTime := .null } (P + g) D ((0 - 0) * r) rfl rfl hD rfl hg2 hsess hrates2
      rw [hres]
      refine congrArg JSVal.num ?_
      simp only [sessionSum, span]
      ring
    | cons a ts2 =>
      have hticks2 : ∀ t ∈ ts2, (P + g) + (t - a) * r < D := by
        intro t ht
        exact hticks t (by simp [ht])
      have hrun := runTicks_fresh_cons
        { e with
          playbackRate := .num r
          startPosition := .num (P + g)
          scheduledPause := .undefined
          state := some PState.playing
          lastPlay := .null
          clockTime := .null } (P + g) D r a ts2 rfl rfl rfl hD rfl rfl hPD hticks2
      have hseg : segStep e (r, a :: ts2) =
          { e with
            playbackRate := .num r
            startPosition := .num (P + g)
            scheduledPause := .undefined
            state := some PState.playing
            lastPlay := .num a
            clockTime := .num (lastOf a ts2) } := by
        simp only [segStep, hsr]
        rw [hrun]
      rw [hseg]
      have hg2 : getPlayedTime
          { e with
            playbackRate := .num r
            startPosition := .num (P + g)
            scheduledPause := .undefined
            state := some PState.playing
            lastPlay := .num a
            clockTime := .num (lastOf a ts2) } = JSVal.num ((lastOf a ts2 - a) * r) := by
        simp [getPlayedTime, JSVal.sub, JSVal.mul, JSVal.toNum]
      have hsess : sessionOK D ((P + g) + (lastOf a ts2 - a) * r) rest := by
        have heq : (P + g) + r * span (a :: ts2) = (P + g) + (lastOf a ts2 - a) * r := by
          simp only [span]
          ring
        rw [heq] at hrest
        exact hrest
      have hres := ih
        { e with
          playbackRate := .num r
          startPosition := .num (P + g)
          scheduledPause := .undefined
          state := some PState.playing
          lastPlay := .num a
          clockTime := .num (lastOf a ts2) } (P + g) D ((lastOf a ts2 - a) * r)
        rfl rfl hD rfl hg2 hsess hrates2
      rw [hres]
      refine congrArg JSVal.num ?_
      simp only [sessionSum, span]
      ring

/-- Claim C1: a session that plays from a position below the duration with a
nonzero rate for every segment, whose non-decreasing ticks all keep the
computed current time below the duration, advances getCurrentTime by the sum
over segments of the segment rate times the wall-clock span of its ticks:
each setPlaybackRate call mid-playback folds the elapsed segment into
startPosition via its pause-then-play cycle, so the contributions add. -/
theorem claim1_rate_invariance (e : Ext) (D p0 r0 : ℚ) (segs : List (ℚ × List ℚ))
    (hst : e.state = some PState.paused) (hD : e.explicitDuration = .num D)
    (hr : e.playbackRate = .num r0) (hp : p0 < D)
    (hmono : List.Chain' (· ≤ ·) (allTicks segs))
    (hok : sessionOK D p0 segs)
    (hrates : ∀ seg ∈ segs, seg.1 ≠ 0) :
    getCurrentTime (session p0 segs e) = .num (p0 + sessionSum segs) := by
  have hplay := play_explicit e p0 D r0 hst hD hr hp
  have hg : getPlayedTime
      { e with
        startPosition := .num p0
        scheduledPause := .undefined
        state := some PState.playing
        lastPlay := .null
        clockTime := .null } = JSVal.num ((0 - 0) * r0) := by
    simp [getPlayedTime, JSVal.sub, JSVal.mul, JSVal.toNum, hr]
  have hsess : sessionOK D (p0 + (0 - 0) * r0) segs := by
    have heq : p0 = p0 + (0 - 0) * r0 := by ring
    rw [← heq]
    exact hok
  have hres := session_segments segs _ p0 D ((0 - 0) * r0) rfl rfl
    (by simpa using hD) rfl hg hsess hrates
  calc getCurrentTime (session p0 segs e)
      = getCurrentTime (segs.foldl segStep
        { e with
          startPosition := .num p0
          scheduledPause := .undefined
          state := some PState.playing
          lastPlay := .null
          clockTime := .null }) := by rw [session, hplay]
    _ = .num (p0 + (0 - 0) * r0 + sessionSum segs) := hres
    _ = .num (p0 + sessionSum segs) := congrArg JSVal.num (by ring)

end WS

namespace WS

/-- Witness for claim C1: on a loaded 10 second clip, play from position 1,
tick at 0 s and 2 s at rate 1 (advance 2), switch to rate 2, tick at 3 s and
5 s (advance 4): the final current time is 1 + 1 times 2 + 2 times 2 = 7. -/
theorem claim1_witness :
    getCurrentTime (session 1 [(1, [0, 2]), (2, [3, 5])] loaded10) = .num 7 := by
  have h := claim1_rate_invariance loaded10 10 1 1 [(1, [0, 2]), (2, [3, 5])]
    rfl rfl rfl (by norm_num)
    (by norm_num [allTicks, List.chain'_cons])
    (by norm_num [sessionOK, ticksOK, span, lastOf])
    (by simp)
  rw [show (1 : ℚ) + sessionSum [(1, [0, 2]), (2, [3, 5])] = 7 by
    norm_num [sessionSum, span, lastOf]] at h
  exact h

end WS
